import Mathlib

/-!
Verification of the envelope-inspector debug script (`src/backend/debug_cbor.py`).

The script pipeline is
  `decoded = base64.urlsafe_b64decode(base64_data + "=" * (4 - len(base64_data) % 4))`,
two unconditional prints (byte length and hex dump), then a `try` block that
runs `cbor2.loads` and `json.dumps(parsed, indent=2, default=str)`, with an
`except Exception` branch that prints the error, the first byte
(`decoded[0]`, an IndexError on empty input) and a hard-coded classification
for first bytes `0xa4` / `0xa5`.

We embed each stage: CPython's lenient `binascii.a2b_base64` (non-strict
mode), a definite-length CBOR decoder for the fragment of CBOR the script's
data exercises, a model of `json.dumps(..., indent=2, default=str)`, and the
script's print sequence.  Fallible stages return `Except`; the whole run
returns the list of printed strings together with an optional uncaught
exception.
-/

namespace DebugCbor

/-- Value of one base64 character under `base64.urlsafe_b64decode`:
the function first translates `-`→`+` and `_`→`/`, then uses the standard
alphabet, so both pairs are accepted. `none` means the character is not in
the alphabet (`=` is handled separately by the decoding loop). -/
def b64val (c : Char) : Option Nat :=
  if 'A' ≤ c ∧ c ≤ 'Z' then some (c.toNat - 65)
  else if 'a' ≤ c ∧ c ≤ 'z' then some (c.toNat - 71)
  else if '0' ≤ c ∧ c ≤ '9' then some (c.toNat + 4)
  else if c = '+' ∨ c = '-' then some 62
  else if c = '/' ∨ c = '_' then some 63
  else none

/-- CPython `binascii.a2b_base64` in non-strict mode (the mode used by
`base64.b64decode` and hence `base64.urlsafe_b64decode`): characters outside
the alphabet are skipped; a `=` is ignored before two data characters of the
current quad have been seen, and finishes the decode once the quad is
completed by padding; input ending mid-quad is an error.  State: `qp` is the
position in the current quad (0–3), `left` the pending bits of the previous
data character, `pads` the number of padding characters seen since the last
data character. -/
def a2bLoop : List Char → Nat → Nat → Nat → Except String (List Nat)
  | [], qp, _, _ =>
    if qp = 0 then .ok []
    else if qp = 1 then
      .error "Invalid base64-encoded string: number of data characters cannot be 1 more than a multiple of 4"
    else .error "Incorrect padding"
  | c :: rest, qp, left, pads =>
    if c = '=' then
      if 2 ≤ qp then
        if 4 ≤ qp + pads + 1 then .ok []
        else a2bLoop rest qp left (pads + 1)
      else a2bLoop rest qp left pads
    else
      match b64val c with
      | none => a2bLoop rest qp left pads
      | some d =>
        match qp with
        | 0 => a2bLoop rest 1 d 0
        | 1 => (a2bLoop rest 2 (d % 16) 0).map fun t => (left * 4 + d / 16) :: t
        | 2 => (a2bLoop rest 3 (d % 4) 0).map fun t => (left * 16 + d / 4) :: t
        | _ => (a2bLoop rest 0 0 0).map fun t => (left * 64 + d) :: t

/-- The script's padding expression: `payload + "=" * (4 - len(payload) % 4)`.
Note the count is `4 - len % 4`, which is 4 (not 0) when the length is
already a multiple of 4. -/
def paddedInput (s : String) : List Char :=
  s.data ++ List.replicate (4 - s.length % 4) '='

/-- `base64.urlsafe_b64decode(payload + "=" * (4 - len(payload) % 4))`,
line 10 of the script. -/
def decode_payload (s : String) : Except String (List Nat) :=
  a2bLoop (paddedInput s) 0 0 0

/-- Modelled from the spec: the quad-at-a-time reference base64 decoder that
§8 compares `decode_payload` against ("a reference base64 decoder after
manual padding"), acting on the sequence of 6-bit values; a trailing group
of two or three values yields one or two bytes. -/
def refQuads : List Nat → List Nat
  | v1 :: v2 :: v3 :: v4 :: rest =>
    (v1 * 4 + v2 / 16) :: ((v2 % 16) * 16 + v3 / 4) :: ((v3 % 4) * 64 + v4) :: refQuads rest
  | [v1, v2, v3] => [v1 * 4 + v2 / 16, (v2 % 16) * 16 + v3 / 4]
  | [v1, v2] => [v1 * 4 + v2 / 16]
  | _ => []

/-- The 6-bit values of a string's characters (total on valid input). -/
def vals (cs : List Char) : List Nat :=
  cs.map fun c => (b64val c).getD 0

/-- Modelled from the spec: reference decoder applied to a valid base64
string with its padding restored manually. -/
def refDecode (s : String) : List Nat :=
  refQuads (vals s.data)

/-- CBOR value tree as produced by `cbor2.loads` on the fragment of CBOR the
script's data can contain: integers, byte strings, text strings, booleans,
null, arrays and maps (keys of any value kind, in encounter order).  Floats,
semantic tags, indefinite-length items and non-ASCII text are outside the
model; the decoder reports them as errors, and no claim below exercises
them.  Duplicate map keys are likewise kept as given rather than collapsed
the way a Python `dict` would; no claim exercises duplicates. -/
inductive CVal where
  | int : Int → CVal
  | bytes : List Nat → CVal
  | text : String → CVal
  | bool : Bool → CVal
  | null : CVal
  | arr : List CVal → CVal
  | map : List (CVal × CVal) → CVal

/-- Reads the argument encoded by the low five bits of an initial byte:
values 0–23 stand for themselves, 24–27 say the argument follows in 1, 2, 4
or 8 big-endian bytes. -/
def readArg (ai : Nat) (bs : List Nat) : Except String (Nat × List Nat) :=
  if ai < 24 then .ok (ai, bs)
  else if ai = 24 then
    match bs with
    | b1 :: r => .ok (b1, r)
    | _ => .error "premature end of stream"
  else if ai = 25 then
    match bs with
    | b1 :: b2 :: r => .ok (b1 * 256 + b2, r)
    | _ => .error "premature end of stream"
  else if ai = 26 then
    match bs with
    | b1 :: b2 :: b3 :: b4 :: r =>
      .ok (((b1 * 256 + b2) * 256 + b3) * 256 + b4, r)
    | _ => .error "premature end of stream"
  else if ai = 27 then
    match bs with
    | b1 :: b2 :: b3 :: b4 :: b5 :: b6 :: b7 :: b8 :: r =>
      .ok (((((((b1 * 256 + b2) * 256 + b3) * 256 + b4) * 256 + b5) * 256
        + b6) * 256 + b7) * 256 + b8, r)
    | _ => .error "premature end of stream"
  else .error "additional info 28-31 not modelled"

/-- Takes `n` payload bytes, failing on truncated input. -/
def readChunk (n : Nat) (bs : List Nat) : Except String (List Nat × List Nat) :=
  if bs.length < n then .error "premature end of stream"
  else .ok (bs.take n, bs.drop n)

/-- Text strings in the model are ASCII; every string in the script's data
is. -/
def asciiText (bs : List Nat) : Except String String :=
  if bs.all (· < 128) then .ok (String.mk (bs.map Char.ofNat))
  else .error "non-ASCII text not modelled"

mutual

/-- One CBOR data item: initial byte = major type (top 3 bits) and
additional info (low 5 bits).  `fuel` strictly decreases on every call so
that evaluation is structural. -/
def decodeItem : Nat → List Nat → Except String (CVal × List Nat)
  | 0, _ => .error "recursion limit exceeded"
  | _ + 1, [] => .error "premature end of stream"
  | fuel + 1, b :: rest =>
    let mt := b / 32
    let ai := b % 32
    if mt = 0 then (readArg ai rest).map fun p => (.int (Int.ofNat p.1), p.2)
    else if mt = 1 then
      (readArg ai rest).map fun p => (.int (-1 - Int.ofNat p.1), p.2)
    else if mt = 2 then
      (readArg ai rest).bind fun p =>
        (readChunk p.1 p.2).map fun q => (.bytes q.1, q.2)
    else if mt = 3 then
      (readArg ai rest).bind fun p =>
        (readChunk p.1 p.2).bind fun q =>
          (asciiText q.1).map fun s => (.text s, q.2)
    else if mt = 4 then
      (readArg ai rest).bind fun p =>
        (decodeSeq fuel p.1 p.2).map fun q => (.arr q.1, q.2)
    else if mt = 5 then
      (readArg ai rest).bind fun p =>
        (decodePairs fuel p.1 p.2).map fun q => (.map q.1, q.2)
    else if mt = 6 then .error "semantic tags not modelled"
    else if ai = 20 then .ok (.bool false, rest)
    else if ai = 21 then .ok (.bool true, rest)
    else if ai = 22 then .ok (.null, rest)
    else .error "simple and float values not modelled"

/-- `n` consecutive data items (array elements). -/
def decodeSeq : Nat → Nat → List Nat → Except String (List CVal × List Nat)
  | 0, _, _ => .error "recursion limit exceeded"
  | _ + 1, 0, bs => .ok ([], bs)
  | fuel + 1, n + 1, bs =>
    (decodeItem fuel bs).bind fun p =>
      (decodeSeq fuel n p.2).map fun q => (p.1 :: q.1, q.2)

/-- `n` consecutive key/value pairs (map entries), keys in encounter
order. -/
def decodePairs : Nat → Nat → List Nat → Except String (List (CVal × CVal) × List Nat)
  | 0, _, _ => .error "recursion limit exceeded"
  | _ + 1, 0, bs => .ok ([], bs)
  | fuel + 1, n + 1, bs =>
    (decodeItem fuel bs).bind fun k =>
      (decodeItem fuel k.2).bind fun v =>
        (decodePairs fuel n v.2).map fun q => ((k.1, v.1) :: q.1, q.2)

end

/-- `cbor2.loads(decoded)`, line 16 of the script: decodes the single
top-level value, ignoring any trailing bytes.  The fuel `2 * length + 2`
exceeds the recursion any input of this length can force. -/
def parse_cbor (bs : List Nat) : Except String CVal :=
  (decodeItem (2 * bs.length + 2) bs).map Prod.fst

/-- One lowercase hex digit. -/
def hexDigit (n : Nat) : Char :=
  if n < 10 then Char.ofNat (48 + n) else Char.ofNat (87 + n)

/-- Python `f"0x{b:02x}"` body for a byte: two lowercase hex digits. -/
def hex2 (b : Nat) : String :=
  String.mk [hexDigit (b / 16 % 16), hexDigit (b % 16)]

/-- Four lowercase hex digits, as in a JSON `\u` escape. -/
def hex4 (n : Nat) : String :=
  String.mk [hexDigit (n / 4096 % 16), hexDigit (n / 256 % 16),
    hexDigit (n / 16 % 16), hexDigit (n % 16)]

/-- Python `bytes.hex()`: lowercase hex, no separators. -/
def hexStr (bs : List Nat) : String :=
  String.join (bs.map hex2)

/-- One character of a JSON string under `json.dumps` defaults
(`ensure_ascii=True`): quote, backslash and the short control escapes get a
backslash form, other characters outside the printable ASCII range become
`\uXXXX` (the model covers the basic plane; all strings in the script's
data are ASCII). -/
def jsonEscChar (c : Char) : String :=
  if c = '"' then "\\\""
  else if c = '\\' then "\\\\"
  else if c = Char.ofNat 10 then "\\n"
  else if c = Char.ofNat 9 then "\\t"
  else if c = Char.ofNat 13 then "\\r"
  else if c = Char.ofNat 8 then "\\b"
  else if c = Char.ofNat 12 then "\\f"
  else if c.toNat < 32 ∨ 127 ≤ c.toNat then "\\u" ++ hex4 c.toNat
  else String.mk [c]

/-- A JSON string literal for `s`. -/
def jsonQuote (s : String) : String :=
  "\"" ++ String.join (s.data.map jsonEscChar) ++ "\""

/-- One byte inside Python's `repr` of a `bytes` object with quote
character code `q`: backslash and the quote are escaped, tab/newline/return
take their short escapes, other printable ASCII is literal, the rest is
`\xHH`. -/
def pyByteEsc (q : Nat) (b : Nat) : String :=
  if b = 92 then "\\\\"
  else if b = q then "\\" ++ String.mk [Char.ofNat q]
  else if b = 9 then "\\t"
  else if b = 10 then "\\n"
  else if b = 13 then "\\r"
  else if 32 ≤ b ∧ b < 127 then String.mk [Char.ofNat b]
  else "\\x" ++ hex2 b

/-- Python `str(bytes)` (= `repr`): `b` followed by a quoted body; the
quote is `'` unless the bytes contain `'` but not `"`, in which case it is
`"`. -/
def pyBytesRepr (bs : List Nat) : String :=
  let q : Nat := if bs.contains 39 ∧ ¬ bs.contains 34 then 34 else 39
  let qc := String.mk [Char.ofNat q]
  "b" ++ qc ++ String.join (bs.map (pyByteEsc q)) ++ qc

/-- Rendering of a mapping key by `json.dumps`: text keys are quoted,
integer, boolean and null keys are coerced to their JSON spelling inside
quotes, and every other key raises
`TypeError: keys must be str, int, float, bool or None`.  `default=str` is
not consulted for keys. -/
def renderKey : CVal → Except String String
  | .text s => .ok (jsonQuote s)
  | .int n => .ok ("\"" ++ toString n ++ "\"")
  | .bool b => .ok (if b then "\"true\"" else "\"false\"")
  | .null => .ok "\"null\""
  | _ => .error "keys must be str, int, float, bool or None"

/-- `indent=2` indentation prefix at nesting depth `ind`. -/
def indentStr (ind : Nat) : String :=
  String.mk (List.replicate (2 * ind) ' ')

mutual

/-- `json.dumps(v, indent=2, default=str)` at nesting depth `ind`.
Containers are laid out one entry per line; keys keep encounter order
(`sort_keys` is off); byte strings go through `default=str`, that is,
Python's `bytes` repr; exhausting `fuel` models the interpreter's recursion
limit (the fuel also decreases along list entries, a conservative bound
that no claim's input comes near). -/
def renderVal : Nat → Nat → CVal → Except String String
  | 0, _, _ => .error "maximum recursion depth exceeded"
  | _ + 1, _, .int n => .ok (toString n)
  | _ + 1, _, .bool b => .ok (if b then "true" else "false")
  | _ + 1, _, .null => .ok "null"
  | _ + 1, _, .text s => .ok (jsonQuote s)
  | _ + 1, _, .bytes bs => .ok (jsonQuote (pyBytesRepr bs))
  | _ + 1, _, .arr [] => .ok "[]"
  | fuel + 1, ind, .arr (x :: xs) =>
    (renderSeq fuel (ind + 1) (x :: xs)).map fun items =>
      "[\n" ++ String.intercalate ",\n" (items.map (indentStr (ind + 1) ++ ·))
        ++ "\n" ++ indentStr ind ++ "]"
  | _ + 1, _, .map [] => .ok "\x7b\x7d"
  | fuel + 1, ind, .map (kv :: kvs) =>
    (renderPairs fuel (ind + 1) (kv :: kvs)).map fun items =>
      "\x7b\n" ++ String.intercalate ",\n" (items.map (indentStr (ind + 1) ++ ·))
        ++ "\n" ++ indentStr ind ++ "\x7d"

/-- Renders array elements. -/
def renderSeq : Nat → Nat → List CVal → Except String (List String)
  | 0, _, _ => .error "maximum recursion depth exceeded"
  | _ + 1, _, [] => .ok []
  | fuel + 1, ind, v :: vs =>
    (renderVal fuel ind v).bind fun s =>
      (renderSeq fuel ind vs).map fun t => s :: t

/-- Renders map entries as `key: value` lines, in encounter order. -/
def renderPairs : Nat → Nat → List (CVal × CVal) → Except String (List String)
  | 0, _, _ => .error "maximum recursion depth exceeded"
  | _ + 1, _, [] => .ok []
  | fuel + 1, ind, kv :: kvs =>
    (renderKey kv.1).bind fun ks =>
      (renderVal fuel ind kv.2).bind fun vs2 =>
        (renderPairs fuel ind kvs).map fun t => (ks ++ ": " ++ vs2) :: t

end

/-- `json.dumps(parsed, indent=2, default=str)`, line 18 of the script,
run with CPython's default recursion limit. -/
def render (v : CVal) : Except String String :=
  renderVal 1000 0 v

/-- Values whose rendering the `json.dumps` model completes within `fuel`
steps: every mapping key must be text, integer, boolean or null, matching
`renderKey`, and the structure must fit in the fuel (the fuel recursion
mirrors `renderVal`). -/
def goodKey : CVal → Bool
  | .text _ => true
  | .int _ => true
  | .bool _ => true
  | .null => true
  | _ => false

mutual

/-- See `goodKey`; fuel recursion mirrors `renderVal`. -/
def goodVal : Nat → CVal → Bool
  | 0, _ => false
  | _ + 1, .int _ => true
  | _ + 1, .bool _ => true
  | _ + 1, .null => true
  | _ + 1, .text _ => true
  | _ + 1, .bytes _ => true
  | _ + 1, .arr [] => true
  | fuel + 1, .arr (x :: xs) => goodSeq fuel (x :: xs)
  | _ + 1, .map [] => true
  | fuel + 1, .map (kv :: kvs) => goodPairs fuel (kv :: kvs)

/-- See `goodVal`. -/
def goodSeq : Nat → List CVal → Bool
  | 0, _ => false
  | _ + 1, [] => true
  | fuel + 1, v :: vs => goodVal fuel v && goodSeq fuel vs

/-- See `goodVal`. -/
def goodPairs : Nat → List (CVal × CVal) → Bool
  | 0, _ => false
  | _ + 1, [] => true
  | fuel + 1, kv :: kvs => goodKey kv.1 && goodVal fuel kv.2 && goodPairs fuel kvs

end

/-- Lines 24–28 of the script: the hard-coded classification of the first
byte — exactly the two literal cases `0xa4` and `0xa5`, nothing else. -/
def classifyLines (b : Nat) : List String :=
  if b = 164 then ["  -> This is a CBOR map with 4 keys"]
  else if b = 165 then ["  -> This is a CBOR map with 5 keys"]
  else []

/-- Lines 22–28 of the script, the body of the `except` branch after the
error message: the header print (its f-string starts with a newline), the
`decoded[0]` first-byte print — an `IndexError` when `decoded` is empty —
and the classification.  Each list entry is the payload of one `print`
call. -/
def diagnose_failure (bs : List Nat) : Except String (List String) :=
  match bs with
  | [] => .error "IndexError: index out of range"
  | b :: _ =>
    .ok (["\nRaw byte analysis:", "First byte: 0x" ++ hex2 b] ++ classifyLines b)

/-- `print(f"Decoded bytes length: {len(decoded)}")`, line 11. -/
def lenLine (bs : List Nat) : String :=
  "Decoded bytes length: " ++ toString bs.length

/-- `print(f"Hex dump (first 100 bytes): {decoded[:100].hex()}")`,
line 12. -/
def hexLine (bs : List Nat) : String :=
  "Hex dump (first 100 bytes): " ++ hexStr (bs.take 100)

/-- The `except Exception` branch: error print, then the raw-byte
diagnosis; when `decoded` is empty the branch itself dies with an
`IndexError` after its first two prints. -/
def exceptBranch (bs : List Nat) (e : String) : List String × Option String :=
  match bs with
  | [] =>
    (["Error parsing CBOR: " ++ e, "\nRaw byte analysis:"],
      some "IndexError: index out of range")
  | b :: _ =>
    (["Error parsing CBOR: " ++ e, "\nRaw byte analysis:",
      "First byte: 0x" ++ hex2 b] ++ classifyLines b, none)

/-- The whole script as a function of the payload string: the list of
`print` payloads in order, together with the uncaught exception if one
escapes.  The base64 decode on line 10 sits outside the `try`, so its
failure is fatal; the `try` block covers both `cbor2.loads` and
`json.dumps`, and any exception from either lands in `exceptBranch`. -/
def run (payload : String) : List String × Option String :=
  match decode_payload payload with
  | .error e => ([], some ("binascii.Error: " ++ e))
  | .ok bs =>
    let pre := [lenLine bs, hexLine bs]
    match parse_cbor bs with
    | .error e => (pre ++ (exceptBranch bs e).1, (exceptBranch bs e).2)
    | .ok v =>
      match render v with
      | .ok s => (pre ++ ["\nParsed CBOR structure:", s], none)
      | .error e =>
        (pre ++ ["\nParsed CBOR structure:"] ++ (exceptBranch bs e).1,
          (exceptBranch bs e).2)

/-- The hard-coded payload, line 7 of the script. -/
def base64_data : String :=
  "pGhkaWdlc3RJRBkWF2ZyYW5kb21QHN+DMvBOaGr5GzeSFPIIdnFlbGVtZW50SWRlbnRpZmllcmthZ2Vfb3Zlcl8xOGxlbGVtZW50VmFsdWX1"

/-- The bytes the sample payload decodes to. -/
def sampleBytes : List Nat :=
  (decode_payload base64_data).toOption.getD []

/-- The byte-string value under the `random` key of the sample map. -/
def sampleRandom : List Nat :=
  [28, 223, 131, 50, 240, 78, 104, 106, 249, 27, 55, 146, 20, 242, 8, 118]

/-- The value the sample payload parses to: a four-entry map. -/
def sampleVal : CVal :=
  .map [(.text "digestID", .int 5655),
        (.text "random", .bytes sampleRandom),
        (.text "elementIdentifier", .text "age_over_18"),
        (.text "elementValue", .bool true)]

/-- Number of entries when a parse produced a map. -/
def entryCount : Except String CVal → Option Nat
  | .ok (.map kvs) => some kvs.length
  | _ => none

/-- Whether an `Except` is a success. -/
def exceptOk {α : Type} : Except String α → Bool
  | .ok _ => true
  | .error _ => false

/-- The text a list-of-prints result would put on the terminal (failure
gives the empty string; used only to phrase containment). -/
def outText : Except String (List String) → String
  | .ok ls => String.intercalate "\n" ls
  | .error _ => ""

/-- `pre` is a prefix of `l`. -/
def listPrefix : List Char → List Char → Bool
  | [], _ => true
  | _ :: _, [] => false
  | a :: as, b :: bs => a == b && listPrefix as bs

/-- `pat` occurs as a contiguous run inside `l`. -/
def hasSub : List Char → List Char → Bool
  | [], pat => pat.isEmpty
  | c :: rest, pat => listPrefix pat (c :: rest) || hasSub rest pat

/-- Substring test: `pat` occurs in `s`. -/
def containsStr (s pat : String) : Bool :=
  hasSub s.data pat.data

/-! ## Helper lemmas -/

@[simp] lemma exceptOk_ok {α : Type} (a : α) :
    exceptOk (Except.ok a : Except String α) = true := rfl

@[simp] lemma exceptOk_error {α : Type} (e : String) :
    exceptOk (Except.error e : Except String α) = false := rfl

lemma b64val_pad_eq_none : b64val '=' = none := by decide

lemma ne_pad_of_b64val {c : Char} {d : Nat} (h : b64val c = some d) : c ≠ '=' := by
  intro hc
  rw [hc, b64val_pad_eq_none] at h
  cases h

/-- At quad position 0 the pending-bits and pad-count state is inert. -/
lemma a2bLoop_state0 (xs : List Char) :
    ∀ l p l' p', a2bLoop xs 0 l p = a2bLoop xs 0 l' p' := by
  induction xs with
  | nil => intro l p l' p'; rfl
  | cons c rest ih =>
    intro l p l' p'
    by_cases hc : c = '='
    · subst hc
      show a2bLoop rest 0 l p = a2bLoop rest 0 l' p'
      exact ih l p l' p'
    · simp only [a2bLoop, if_neg hc]
      cases hv : b64val c with
      | none => exact ih _ _ _ _
      | some d => rfl

/-- Four valid characters starting a quad emit three bytes and return to
quad position 0. -/
lemma a2bLoop_quad (c1 c2 c3 c4 : Char) (v1 v2 v3 v4 : Nat)
    (h1 : b64val c1 = some v1) (h2 : b64val c2 = some v2)
    (h3 : b64val c3 = some v3) (h4 : b64val c4 = some v4)
    (rest : List Char) (l p : Nat) :
    a2bLoop (c1 :: c2 :: c3 :: c4 :: rest) 0 l p =
      (a2bLoop rest 0 0 0).map fun t =>
        (v1 * 4 + v2 / 16) :: ((v2 % 16) * 16 + v3 / 4) :: ((v3 % 4) * 64 + v4) :: t := by
  have n1 := ne_pad_of_b64val h1
  have n2 := ne_pad_of_b64val h2
  have n3 := ne_pad_of_b64val h3
  have n4 := ne_pad_of_b64val h4
  cases hX : a2bLoop rest 0 0 0 with
  | error e => simp [a2bLoop, n1, n2, n3, n4, h1, h2, h3, h4, hX, Except.map]
  | ok t => simp [a2bLoop, n1, n2, n3, n4, h1, h2, h3, h4, hX, Except.map]

lemma length_four_destruct {α : Type} (l : List α) (m : Nat)
    (h : l.length = 4 * (m + 1)) :
    ∃ a b c d t, l = a :: b :: c :: d :: t ∧ t.length = 4 * m := by
  cases l with
  | nil => simp only [List.length_nil] at h; omega
  | cons a l1 =>
    cases l1 with
    | nil => simp only [List.length_cons, List.length_nil] at h; omega
    | cons b l2 =>
      cases l2 with
      | nil => simp only [List.length_cons, List.length_nil] at h; omega
      | cons c l3 =>
        cases l3 with
        | nil => simp only [List.length_cons, List.length_nil] at h; omega
        | cons d t =>
          refine ⟨a, b, c, d, t, rfl, ?_⟩
          simp only [List.length_cons] at h
          omega

/-- A block of full quads of valid characters prepends its reference
decoding to whatever the remaining input decodes to. -/
lemma a2bLoop_quads : ∀ (m : Nat) (cs : List Char), cs.length = 4 * m →
    (∀ c ∈ cs, (b64val c).isSome = true) →
    ∀ (tail : List Char) (l p : Nat),
      a2bLoop (cs ++ tail) 0 l p =
        (a2bLoop tail 0 0 0).map fun t => refQuads (vals cs) ++ t := by
  intro m
  induction m with
  | zero =>
    intro cs hlen hv tail l p
    have hnil : cs = [] := List.eq_nil_of_length_eq_zero (by omega)
    subst hnil
    rw [List.nil_append, a2bLoop_state0 tail l p 0 0]
    cases a2bLoop tail 0 0 0 <;> simp [Except.map, vals, refQuads]
  | succ m ih =>
    intro cs hlen hv tail l p
    obtain ⟨a, b, c, d, t, rfl, ht⟩ := length_four_destruct cs m hlen
    obtain ⟨va, hva⟩ := Option.isSome_iff_exists.mp (hv a (by simp))
    obtain ⟨vb, hvb⟩ := Option.isSome_iff_exists.mp (hv b (by simp))
    obtain ⟨vc, hvc⟩ := Option.isSome_iff_exists.mp (hv c (by simp))
    obtain ⟨vd, hvd⟩ := Option.isSome_iff_exists.mp (hv d (by simp))
    have hstep := a2bLoop_quad a b c d va vb vc vd hva hvb hvc hvd (t ++ tail) l p
    simp only [List.cons_append] at hstep ⊢
    rw [hstep, ih t ht (fun x hx => hv x (by simp [hx])) tail 0 0]
    cases a2bLoop tail 0 0 0 <;>
      simp [Except.map, vals, refQuads, hva, hvb, hvc, hvd]

lemma a2bLoop_pads4 : a2bLoop (List.replicate 4 '=') 0 0 0 = .ok [] := rfl

lemma a2bLoop_rem2 (c1 c2 : Char) (v1 v2 : Nat)
    (h1 : b64val c1 = some v1) (h2 : b64val c2 = some v2) :
    a2bLoop (c1 :: c2 :: List.replicate 2 '=') 0 0 0 = .ok [v1 * 4 + v2 / 16] := by
  have n1 := ne_pad_of_b64val h1
  have n2 := ne_pad_of_b64val h2
  simp [a2bLoop, n1, n2, h1, h2, Except.map, List.replicate]

lemma a2bLoop_rem3 (c1 c2 c3 : Char) (v1 v2 v3 : Nat)
    (h1 : b64val c1 = some v1) (h2 : b64val c2 = some v2)
    (h3 : b64val c3 = some v3) :
    a2bLoop (c1 :: c2 :: c3 :: List.replicate 1 '=') 0 0 0 =
      .ok [v1 * 4 + v2 / 16, (v2 % 16) * 16 + v3 / 4] := by
  have n1 := ne_pad_of_b64val h1
  have n2 := ne_pad_of_b64val h2
  have n3 := ne_pad_of_b64val h3
  simp [a2bLoop, n1, n2, n3, h1, h2, h3, Except.map, List.replicate]

/-- Padding characters are inert at quad position 1, so input ending one
data character into a quad fails however much padding follows. -/
lemma a2bLoop_pads_qp1 : ∀ (k x p : Nat),
    a2bLoop (List.replicate k '=') 1 x p =
      .error "Invalid base64-encoded string: number of data characters cannot be 1 more than a multiple of 4" := by
  intro k
  induction k with
  | zero => intro x p; rfl
  | succ k ih =>
    intro x p
    simp only [List.replicate, a2bLoop, if_pos rfl]
    norm_num
    exact ih x p

lemma refQuads_append : ∀ (m : Nat) (qs rem : List Nat), qs.length = 4 * m →
    refQuads (qs ++ rem) = refQuads qs ++ refQuads rem := by
  intro m
  induction m with
  | zero =>
    intro qs rem h
    have hnil : qs = [] := List.eq_nil_of_length_eq_zero (by omega)
    subst hnil
    simp [refQuads]
  | succ m ih =>
    intro qs rem h
    obtain ⟨a, b, c, d, t, rfl, ht⟩ := length_four_destruct qs m h
    simp only [List.cons_append, refQuads, List.append_eq]
    rw [ih t rem ht]

/-- The core of the base64 claims: on input made only of alphabet
characters whose length is not 1 mod 4, the script's decode (its own
padding appended, then the lenient loop) produces exactly the reference
decoding. -/
lemma decode_valid_aux (cs : List Char)
    (hv : ∀ c ∈ cs, (b64val c).isSome = true)
    (hr : cs.length % 4 ≠ 1) :
    a2bLoop (cs ++ List.replicate (4 - cs.length % 4) '=') 0 0 0 =
      .ok (refQuads (vals cs)) := by
  have hsplit := List.take_append_drop (4 * (cs.length / 4)) cs
  have htl : (cs.take (4 * (cs.length / 4))).length = 4 * (cs.length / 4) := by
    simp only [List.length_take]
    omega
  have hdl : (cs.drop (4 * (cs.length / 4))).length = cs.length % 4 := by
    simp only [List.length_drop]
    omega
  have hvt : ∀ c ∈ cs.take (4 * (cs.length / 4)), (b64val c).isSome = true :=
    fun c hc => hv c (List.take_subset _ _ hc)
  have hvd : ∀ c ∈ cs.drop (4 * (cs.length / 4)), (b64val c).isSome = true :=
    fun c hc => hv c (List.drop_subset _ _ hc)
  have hvals : vals cs =
      vals (cs.take (4 * (cs.length / 4))) ++ vals (cs.drop (4 * (cs.length / 4))) := by
    unfold vals
    rw [← List.map_append, hsplit]
  have h4 : cs.length % 4 = 0 ∨ cs.length % 4 = 2 ∨ cs.length % 4 = 3 := by omega
  rcases h4 with h0 | h2 | h3
  · rw [h0]
    rw [a2bLoop_quads (cs.length / 4) cs (by omega) hv (List.replicate (4 - 0) '=') 0 0]
    simp only [Nat.sub_zero]
    rw [a2bLoop_pads4]
    simp [Except.map]
  · obtain ⟨d1, d2, hd⟩ := List.length_eq_two.mp (by rw [hdl, h2])
    obtain ⟨v1, hv1⟩ := Option.isSome_iff_exists.mp (hvd d1 (by rw [hd]; simp))
    obtain ⟨v2, hv2⟩ := Option.isSome_iff_exists.mp (hvd d2 (by rw [hd]; simp))
    rw [h2]
    have hrw : cs ++ List.replicate (4 - 2) '=' =
        cs.take (4 * (cs.length / 4)) ++ (d1 :: d2 :: List.replicate 2 '=') := by
      conv_lhs => rw [← hsplit]
      rw [hd]
      simp
    rw [hrw, a2bLoop_quads (cs.length / 4) _ htl hvt _ 0 0,
      a2bLoop_rem2 d1 d2 v1 v2 hv1 hv2]
    rw [hvals, hd, refQuads_append (cs.length / 4) _ _ (by simpa only [vals, List.length_map] using htl)]
    simp [Except.map, vals, refQuads, hv1, hv2]
  · obtain ⟨d1, d2, d3, hd⟩ := List.length_eq_three.mp (by rw [hdl, h3])
    obtain ⟨v1, hv1⟩ := Option.isSome_iff_exists.mp (hvd d1 (by rw [hd]; simp))
    obtain ⟨v2, hv2⟩ := Option.isSome_iff_exists.mp (hvd d2 (by rw [hd]; simp))
    obtain ⟨v3, hv3⟩ := Option.isSome_iff_exists.mp (hvd d3 (by rw [hd]; simp))
    rw [h3]
    have hrw : cs ++ List.replicate (4 - 3) '=' =
        cs.take (4 * (cs.length / 4)) ++ (d1 :: d2 :: d3 :: List.replicate 1 '=') := by
      conv_lhs => rw [← hsplit]
      rw [hd]
      simp
    rw [hrw, a2bLoop_quads (cs.length / 4) _ htl hvt _ 0 0,
      a2bLoop_rem3 d1 d2 d3 v1 v2 v3 hv1 hv2 hv3]
    rw [hvals, hd, refQuads_append (cs.length / 4) _ _ (by simpa only [vals, List.length_map] using htl)]
    simp [Except.map, vals, refQuads, hv1, hv2, hv3]

/-- String-level version of `decode_valid_aux`. -/
lemma decode_valid (s : String)
    (hv : ∀ c ∈ s.data, (b64val c).isSome = true)
    (hr : s.length % 4 ≠ 1) :
    decode_payload s = .ok (refDecode s) := by
  unfold decode_payload paddedInput refDecode
  exact decode_valid_aux s.data hv hr

/-- Input of only alphabet characters with length 1 mod 4 fails: the padded
tail cannot complete the final quad. -/
lemma decode_invalid_aux (cs : List Char)
    (hv : ∀ c ∈ cs, (b64val c).isSome = true)
    (hr : cs.length % 4 = 1) :
    exceptOk (a2bLoop (cs ++ List.replicate (4 - cs.length % 4) '=') 0 0 0) = false := by
  have hsplit := List.take_append_drop (4 * (cs.length / 4)) cs
  have htl : (cs.take (4 * (cs.length / 4))).length = 4 * (cs.length / 4) := by
    simp only [List.length_take]
    omega
  have hdl : (cs.drop (4 * (cs.length / 4))).length = cs.length % 4 := by
    simp only [List.length_drop]
    omega
  have hvt : ∀ c ∈ cs.take (4 * (cs.length / 4)), (b64val c).isSome = true :=
    fun c hc => hv c (List.take_subset _ _ hc)
  obtain ⟨d1, hd⟩ := List.length_eq_one.mp (by rw [hdl, hr])
  obtain ⟨v1, hv1⟩ := Option.isSome_iff_exists.mp
    (hv d1 (List.drop_subset _ _ (by rw [hd]; simp)))
  have n1 := ne_pad_of_b64val hv1
  rw [hr]
  have hrw : cs ++ List.replicate (4 - 1) '=' =
      cs.take (4 * (cs.length / 4)) ++ (d1 :: List.replicate 3 '=') := by
    conv_lhs => rw [← hsplit]
    rw [hd]
    simp
  rw [hrw, a2bLoop_quads (cs.length / 4) _ htl hvt _ 0 0]
  have hone : a2bLoop (d1 :: List.replicate 3 '=') 0 0 0 =
      .error "Invalid base64-encoded string: number of data characters cannot be 1 more than a multiple of 4" := by
    simp only [a2bLoop, if_neg n1, hv1]
    exact a2bLoop_pads_qp1 3 v1 0
  rw [hone]
  rfl

lemma renderKey_ok (k : CVal) (h : goodKey k = true) :
    exceptOk (renderKey k) = true := by
  cases k <;> simp [goodKey, renderKey] at h ⊢

/-- Rendering succeeds on every value whose keys are JSON-compatible and
whose structure fits in the fuel. -/
lemma renderVal_total : ∀ (fuel : Nat),
    (∀ (ind : Nat) (v : CVal), goodVal fuel v = true →
      exceptOk (renderVal fuel ind v) = true) ∧
    (∀ (ind : Nat) (vs : List CVal), goodSeq fuel vs = true →
      exceptOk (renderSeq fuel ind vs) = true) ∧
    (∀ (ind : Nat) (kvs : List (CVal × CVal)), goodPairs fuel kvs = true →
      exceptOk (renderPairs fuel ind kvs) = true) := by
  intro fuel
  induction fuel with
  | zero =>
    refine ⟨fun ind v h => ?_, fun ind vs h => ?_, fun ind kvs h => ?_⟩ <;>
      simp [goodVal, goodSeq, goodPairs] at h
  | succ fuel ih =>
    obtain ⟨ihV, ihS, ihP⟩ := ih
    refine ⟨fun ind v h => ?_, fun ind vs h => ?_, fun ind kvs h => ?_⟩
    · cases v with
      | int n => rfl
      | bool b => rfl
      | null => rfl
      | text s => rfl
      | bytes bs => rfl
      | arr xs =>
        cases xs with
        | nil => rfl
        | cons x xs =>
          have hs := ihS (ind + 1) (x :: xs) (by simpa [goodVal] using h)
          simp only [renderVal]
          cases hS : renderSeq fuel (ind + 1) (x :: xs) with
          | ok t => simp [Except.map]
          | error e => rw [hS] at hs; simp at hs
      | map kvs =>
        cases kvs with
        | nil => rfl
        | cons kv kvs =>
          have hp := ihP (ind + 1) (kv :: kvs) (by simpa [goodVal] using h)
          simp only [renderVal]
          cases hP : renderPairs fuel (ind + 1) (kv :: kvs) with
          | ok t => simp [Except.map]
          | error e => rw [hP] at hp; simp at hp
    · cases vs with
      | nil => rfl
      | cons v vs =>
        rw [goodSeq, Bool.and_eq_true] at h
        obtain ⟨h1, h2⟩ := h
        have hv := ihV ind v h1
        have hvs := ihS ind vs h2
        simp only [renderSeq]
        cases hV : renderVal fuel ind v with
        | error e => rw [hV] at hv; simp at hv
        | ok s =>
          cases hS : renderSeq fuel ind vs with
          | error e => rw [hS] at hvs; simp at hvs
          | ok t => simp [Except.bind, Except.map]
    · cases kvs with
      | nil => rfl
      | cons kv kvs =>
        rw [goodPairs, Bool.and_eq_true, Bool.and_eq_true] at h
        obtain ⟨⟨h1, h2⟩, h3⟩ := h
        have hk := renderKey_ok kv.1 h1
        have hv := ihV ind kv.2 h2
        have hkvs := ihP ind kvs h3
        simp only [renderPairs]
        cases hK : renderKey kv.1 with
        | error e => rw [hK] at hk; simp at hk
        | ok ks =>
          cases hV : renderVal fuel ind kv.2 with
          | error e => rw [hV] at hv; simp at hv
          | ok s =>
            cases hP : renderPairs fuel ind kvs with
            | error e => rw [hP] at hkvs; simp at hkvs
            | ok t => simp [Except.bind, Except.map]

/-! ## Claims -/

/-- C1, counterexample: the claim says a base64 `FormatError` is converted
into diagnostic text rather than propagated, but the decode sits outside
the `try` block: on payload "A" (one data character cannot complete a
quad), the script prints nothing and dies with the uncaught decode
error. -/
theorem c1_counterexample :
    (run "A").1 = [] ∧ (run "A").2.isSome = true :=
  ⟨rfl, rfl⟩

/-- C1, amended: only the CBOR-parsing stage is guarded: whenever the
base64 decode succeeds with a non-empty byte sequence, the run finishes
with no uncaught exception — any `cbor2.loads` or `json.dumps` error is
converted into the diagnostic prints. -/
theorem c1_amended_parse_errors_caught :
    ∀ (payload : String) (bs : List Nat), decode_payload payload = .ok bs →
      bs ≠ [] → (run payload).2 = none := by
  intro payload bs h hne
  obtain ⟨b, t, rfl⟩ : ∃ b t, bs = b :: t := by
    cases bs with
    | nil => exact absurd rfl hne
    | cons b t => exact ⟨b, t, rfl⟩
  simp only [run, h]
  cases hp : parse_cbor (b :: t) with
  | error e => simp [exceptBranch]
  | ok v =>
    cases hr : render v with
    | ok s => simp [hr]
    | error e => simp [hr, exceptBranch]

/-- C1, witness for the amended theorem at the payload "pGhk". -/
theorem c1_witness : (run "pGhk").2 = none :=
  c1_amended_parse_errors_caught "pGhk" [164, 104, 100] rfl (by decide)

/-- C2, counterexample: on the empty byte sequence the failure branch dies
on `decoded[0]` with an IndexError, so `diagnose_failure` is not total. -/
theorem c2_counterexample : exceptOk (diagnose_failure []) = false := rfl

/-- C2, amended: on every non-empty byte sequence `diagnose_failure`
produces its diagnostic text without throwing. -/
theorem c2_amended_total_on_nonempty :
    ∀ (b : Nat) (bs : List Nat), exceptOk (diagnose_failure (b :: bs)) = true :=
  fun _ _ => rfl

/-- C3, counterexample: `parse_cbor` happily produces a map with a
byte-string key (CBOR bytes `a1 41 61 01`), and rendering that value
raises (`json.dumps` rejects non-primitive keys; `default=str` is not
applied to keys), so `render` is not total over parse results. -/
theorem c3_counterexample :
    parse_cbor [161, 65, 97, 1] =
      Except.ok (CVal.map [(CVal.bytes [97], CVal.int 1)]) ∧
    exceptOk (render (CVal.map [(CVal.bytes [97], CVal.int 1)])) = false :=
  ⟨rfl, rfl⟩

/-- C3, amended: `render` succeeds on every value whose mapping keys are
recursively text, integer, boolean or null and whose structure fits the
recursion limit, as captured by `goodVal`. -/
theorem c3_amended_render_total_on_good_keys :
    ∀ (v : CVal), goodVal 1000 v = true → exceptOk (render v) = true :=
  fun v h => (renderVal_total 1000).1 0 v h

/-- C3, witness for the amended theorem on a small text-keyed map holding
a byte string. -/
theorem c3_witness :
    exceptOk (render (CVal.map [(CVal.text "k", CVal.bytes [0])])) = true :=
  c3_amended_render_total_on_good_keys
    (CVal.map [(CVal.text "k", CVal.bytes [0])]) (by decide)

set_option maxRecDepth 10000 in
/-- C4, counterexample: the sample payload parses to a map with 4 entries,
not 5. -/
theorem c4_counterexample : entryCount (parse_cbor sampleBytes) ≠ some 5 := by
  decide

set_option maxRecDepth 10000 in
/-- C4, amended: decoding the hard-coded payload succeeds, parsing yields
the four-entry map with `digestID` 5655, the 16-byte `random` string,
`elementIdentifier` "age_over_18" and `elementValue` true, and the
rendering shows all four key/value pairs. -/
theorem c4_amended_sample_is_four_entry_map :
    exceptOk (decode_payload base64_data) = true ∧
    parse_cbor sampleBytes = Except.ok sampleVal ∧
    entryCount (parse_cbor sampleBytes) = some 4 ∧
    containsStr ((render sampleVal).toOption.getD "") "\"digestID\": 5655" = true ∧
    containsStr ((render sampleVal).toOption.getD "")
      ("\"random\": " ++ jsonQuote (pyBytesRepr sampleRandom)) = true ∧
    containsStr ((render sampleVal).toOption.getD "")
      "\"elementIdentifier\": \"age_over_18\"" = true ∧
    containsStr ((render sampleVal).toOption.getD "") "\"elementValue\": true" = true :=
  ⟨rfl, rfl, by decide, by decide, by decide, by decide, by decide⟩

/-- C5, counterexample: the script appends `4 - len % 4` padding
characters, not `(4 - len % 4) % 4`: on a payload of length 4 it appends
four equals signs where the claim requires zero. -/
theorem c5_counterexample :
    ¬ ((paddedInput "AAAA").length - "AAAA".length =
      (4 - "AAAA".length % 4) % 4) := by
  decide

/-- C5, amended: the appended padding count is `4 - len % 4` (four, not
zero, at full quads — harmless because the lenient decoder ignores excess
padding), and on every alphabet-only payload whose length is not 1 mod 4
(every valid base64 string with 0–3 missing padding characters)
`decode_payload` succeeds with exactly the reference decoding. -/
theorem c5_amended_decode_matches_reference :
    ∀ s : String, (∀ c ∈ s.data, (b64val c).isSome = true) →
      s.length % 4 ≠ 1 → decode_payload s = .ok (refDecode s) :=
  fun s hv hr => decode_valid s hv hr

/-- C5, witness for the amended theorem at "YWJj". -/
theorem c5_witness : decode_payload "YWJj" = .ok (refDecode "YWJj") :=
  c5_amended_decode_matches_reference "YWJj" (by decide) (by decide)

/-- C6, counterexample: a character outside the URL-safe alphabet does not
make `decode_payload` fail — the lenient decoder silently discards it
(here `*`, which the claim requires to trigger a `FormatError`). -/
theorem c6_counterexample :
    b64val (Char.ofNat 42) = none ∧ Char.ofNat 42 ≠ '=' ∧
    decode_payload "*YWJj" = Except.ok [97, 98, 99] :=
  ⟨by decide, by decide, rfl⟩

/-- C6, amended: non-alphabet characters are discarded, not rejected, and
the corrected padding always has length a multiple of 4; for payloads made
only of alphabet characters, `decode_payload` fails exactly when the
length is 1 mod 4. -/
theorem c6_amended_failure_iff_one_mod_four :
    ∀ s : String, (∀ c ∈ s.data, (b64val c).isSome = true) →
      (exceptOk (decode_payload s) = true ↔ s.length % 4 ≠ 1) := by
  intro s hv
  constructor
  · intro hok h1
    have hx := decode_invalid_aux s.data hv h1
    have hfalse : exceptOk (decode_payload s) = false := hx
    rw [hfalse] at hok
    cases hok
  · intro h1
    rw [decode_valid s hv h1]
    rfl

/-- C6, witness for the amended theorem at "A" (length 1 mod 4: decoding
fails). -/
theorem c6_witness :
    exceptOk (decode_payload "A") = true ↔ "A".length % 4 ≠ 1 :=
  c6_amended_failure_iff_one_mod_four "A" (by decide)

/-- C7, counterexample: byte strings are not rendered as hex: the
rendering of the byte string `61` does not contain its hex spelling
"61" (it goes through Python's bytes repr instead). -/
theorem c7_counterexample :
    hexStr [97] = "61" ∧
    containsStr ((render (CVal.bytes [97])).toOption.getD "") (hexStr [97]) = false :=
  ⟨rfl, by decide⟩

/-- C7, amended: rendering is deterministic and indented with mapping keys
in encounter order and no sorting (keys "b" then "a" stay in that order),
but byte strings are rendered through Python's bytes repr via
`default=str`, not as hex. -/
theorem c7_amended_render_layout :
    (∀ (fuel ind : Nat) (bs : List Nat),
      renderVal (fuel + 1) ind (CVal.bytes bs) =
        Except.ok (jsonQuote (pyBytesRepr bs))) ∧
    render (CVal.map [(CVal.text "b", CVal.int 1), (CVal.text "a", CVal.int 2)]) =
      Except.ok "\x7b\n  \"b\": 1,\n  \"a\": 2\n\x7d" :=
  ⟨fun _ _ _ => rfl, rfl⟩

/-- C8: a first byte 0xa4 yields diagnostic text containing "map" and "4",
and 0xa5 yields text containing "map" and "5", whatever follows. -/
theorem c8_first_byte_classification :
    ∀ bs : List Nat,
      containsStr (outText (diagnose_failure (164 :: bs))) "map" = true ∧
      containsStr (outText (diagnose_failure (164 :: bs))) "4" = true ∧
      containsStr (outText (diagnose_failure (165 :: bs))) "map" = true ∧
      containsStr (outText (diagnose_failure (165 :: bs))) "5" = true :=
  fun _ => ⟨rfl, rfl, rfl, rfl⟩

/-- C9, counterexample: the classifier does not generalize over major
type 5: byte 0xaa (major type 5, additional info 10, which the claim says
must be reported as an entry count) produces no classification at all —
the diagnosis is just the two header lines, mentioning neither "map" nor
"10". -/
theorem c9_counterexample :
    (170 / 32 = 5 ∧ 170 % 32 = 10 ∧ 10 < 24) ∧
    outText (diagnose_failure [170]) = "\nRaw byte analysis:\nFirst byte: 0xaa" ∧
    containsStr (outText (diagnose_failure [170])) "map" = false ∧
    containsStr (outText (diagnose_failure [170])) "10" = false :=
  ⟨⟨rfl, rfl, by decide⟩, rfl, rfl, rfl⟩

/-- C9, amended: the leading-byte classifier emits a classification line
for exactly the two literal bytes 0xa4 and 0xa5; every other first byte —
including every other major-type-5 header — yields only the two header
lines. -/
theorem c9_amended_only_a4_a5_classified :
    ∀ (b : Nat) (bs : List Nat),
      ((diagnose_failure (b :: bs)).toOption.map List.length = some 3 ↔
        b = 164 ∨ b = 165) := by
  intro b bs
  by_cases h4 : b = 164
  · subst h4
    simp [diagnose_failure, classifyLines, Except.toOption]
  · by_cases h5 : b = 165
    · subst h5
      simp [diagnose_failure, classifyLines, Except.toOption]
    · simp [diagnose_failure, classifyLines, Except.toOption, h4, h5]

/-- C10: whenever the decode succeeds, the byte length and hex dump are
the first two prints, before any CBOR parsing outcome can matter. -/
theorem c10_prints_before_parse :
    ∀ (payload : String) (bs : List Nat), decode_payload payload = .ok bs →
      (run payload).1.take 2 = [lenLine bs, hexLine bs] := by
  intro payload bs h
  simp only [run, h]
  cases hp : parse_cbor bs with
  | error e => rfl
  | ok v =>
    cases hr : render v with
    | ok s => simp [hr, List.take_succ_cons]
    | error e => simp [hr, List.take_succ_cons]

/-- C10, witness at the payload "pGhk". -/
theorem c10_witness :
    (run "pGhk").1.take 2 = [lenLine [164, 104, 100], hexLine [164, 104, 100]] :=
  c10_prints_before_parse "pGhk" [164, 104, 100] rfl

end DebugCbor
